import Mathlib

/-!
Verification development for the two data pipelines of this repository:

* `kadai6-1.py` — the Classification Resolver: a flat statistical record set
  (a list of rows, each a mapping from field identifier to scalar value) is
  rewritten with the help of a list of classification objects: per axis, a
  code-to-label dictionary is built and the matching column's values are
  replaced; afterwards a column-rename dictionary is built and the column
  list is renamed.
* `kadai6-2.py` — the Series Reconstructor (`parse_weather_data`): a nested
  forecast document is flattened into one record per (area, timestamp) pair,
  with temperature and precipitation arrays patched into already-created
  rows by positional arithmetic.

Python dictionary access `obj['k']` on a missing key raises `KeyError` and
pandas column access `df[col]` on a missing column raises `KeyError`; both
are modelled by `Except String` with error value `"KeyError"`.  Python
dictionaries are modelled as association lists with overwrite-on-assignment
(`dictSet`), looked up with `List.lookup`.
-/

/-! ## Classification Resolver (`kadai6-1.py`) -/

/-- One row of the statistical data: field identifier to scalar value. -/
abbrev Row := List (String × String)

/-- A pandas data frame: the ordered column list and the rows. -/
structure DataFrame where
  columns : List String
  rows : List Row
deriving DecidableEq

/-- One entry of a `CLASS` list: the `@code` and `@name` keys, which may be
absent (absence raises `KeyError` on access). -/
structure ClassEntry where
  code : Option String
  name : Option String
deriving DecidableEq

/-- The `CLASS` value of a classification object: either a single entry
object or a list of entry objects. -/
inductive ClassField where
  | single (e : ClassEntry)
  | many (es : List ClassEntry)
deriving DecidableEq

/-- One classification object of `CLASS_INF.CLASS_OBJ`: the `@id` and
`@name` keys (possibly absent) and the `CLASS` value. -/
structure ClassObj where
  id : Option String
  name : Option String
  cls : ClassField
deriving DecidableEq

/-- Python dictionary assignment `d[k] = v`: overwrite the value when the
key is present, otherwise append the pair at the end. -/
def dictSet (d : List (String × String)) (k v : String) : List (String × String) :=
  if (d.lookup k).isSome then
    d.map (fun p => if p.1 = k then (k, v) else p)
  else
    d ++ [(k, v)]

/-- The body of the `for obj in class_obj['CLASS']` loop: successive
dictionary assignments `id_to_name_dict[obj['@code']] = obj['@name']`,
raising `KeyError` when a key is absent. -/
def buildEntryDict : List ClassEntry → List (String × String) →
    Except String (List (String × String))
  | [], d => .ok d
  | e :: es, d =>
    match e.code with
    | none => .error "KeyError"
    | some c =>
      match e.name with
      | none => .error "KeyError"
      | some n => buildEntryDict es (dictSet d c n)

/-- Lines 40–45: build `id_to_name_dict` from `class_obj['CLASS']`,
branching on whether the value is a list. -/
def id_to_name_dict : ClassField → Except String (List (String × String))
  | .many es => buildEntryDict es []
  | .single e =>
    match e.code with
    | none => .error "KeyError"
    | some c =>
      match e.name with
      | none => .error "KeyError"
      | some n => .ok (dictSet [] c n)

/-- `dictionary.get(value, value)`: the element-wise effect of
`Series.replace` — an unmatched value passes through unchanged. -/
def replaceVal (d : List (String × String)) (v : String) : String :=
  match d.lookup v with
  | some n => n
  | none => v

/-- Replace the values of one row at the governed column. -/
def resolveRow (col : String) (d : List (String × String)) (r : Row) : Row :=
  r.map (fun p => if p.1 = col then (p.1, replaceVal d p.2) else p)

/-- Line 48: `df[column_name] = df[column_name].replace(id_to_name_dict)`.
Reading a column absent from the frame raises `KeyError`. -/
def replaceColumn (df : DataFrame) (col : String) (d : List (String × String)) :
    Except String DataFrame :=
  if col ∈ df.columns then
    .ok ⟨df.columns, df.rows.map (resolveRow col d)⟩
  else
    .error "KeyError"

/-- One iteration of the resolution loop (lines 34–48) for one
classification object. -/
def resolveAxis (df : DataFrame) (o : ClassObj) : Except String DataFrame :=
  match o.id with
  | none => .error "KeyError"
  | some i =>
    match id_to_name_dict o.cls with
    | .error e => .error e
    | .ok d => replaceColumn df ("@" ++ i) d

/-- The full resolution loop `for class_obj in meta_info` (lines 34–48). -/
def resolveAll : List ClassObj → DataFrame → Except String DataFrame
  | [], df => .ok df
  | o :: rest, df =>
    match resolveAxis df o with
    | .error e => .error e
    | .ok df1 => resolveAll rest df1

/-- The loop of lines 52–55: `col_replace_dict[org_col] = new_col` per
classification object, starting from the given dictionary. -/
def col_replace_aux : List ClassObj → List (String × String) →
    Except String (List (String × String))
  | [], d => .ok d
  | o :: rest, d =>
    match o.id with
    | none => .error "KeyError"
    | some i =>
      match o.name with
      | none => .error "KeyError"
      | some n => col_replace_aux rest (dictSet d ("@" ++ i) n)

/-- Lines 51–55: the column-rename dictionary, seeded with the two fixed
structural renames `'@unit' ↦ '単位'` and `'$' ↦ '値'`. -/
def col_replace_dict (meta : List ClassObj) : Except String (List (String × String)) :=
  col_replace_aux meta (dictSet (dictSet [] "@unit" "単位") "$" "値")

/-- Lines 58–63: the renamed column list; a column with no dictionary
entry keeps its original name. -/
def new_columns (cols : List String) (d : List (String × String)) : List String :=
  cols.map (fun c =>
    match d.lookup c with
    | some n => n
    | none => c)

/-- The whole `kadai6-1` transformation on an already-parsed frame:
the resolution loop, then the rename-dictionary build, then the rename. -/
def processStats (meta : List ClassObj) (df : DataFrame) : Except String DataFrame :=
  match resolveAll meta df with
  | .error e => .error e
  | .ok df1 =>
    match col_replace_dict meta with
    | .error e => .error e
    | .ok cd => .ok ⟨new_columns df1.columns cd, df1.rows⟩

/-! ## Series Reconstructor (`kadai6-2.py`) -/

/-- One reconstructed row (`weather_info`), fields in the dictionary order
of the source: 地域, 地域コード, 日時, 天気, 最高気温, 最低気温, 降水確率. -/
structure WeatherInfo where
  area : String
  areaCode : String
  time : String
  weather : String
  tempHigh : Option String
  tempLow : Option String
  pop : Option String
deriving DecidableEq, Inhabited

/-- One element of `series['areas']`: the area code (via
`area.get('area', {}).get('code', '')`) and the three optional arrays. -/
structure AreaBlock where
  code : String
  weathers : Option (List String)
  temps : Option (List String)
  pops : Option (List String)
deriving DecidableEq

/-- One element of `timeSeries`: `timeDefines` and `areas`
(each read with `.get(..., [])`, so absence is the empty list). -/
structure SeriesBlock where
  timeDefines : List String
  areas : List AreaBlock
deriving DecidableEq

/-- One forecast edition (`data[0]`), carrying its `timeSeries` list. -/
structure Forecast where
  timeSeries : List SeriesBlock
deriving DecidableEq

/-- In-place update of one list position; positions out of range are left
untouched (the total counterpart of `weather_list[j] = ...`). -/
def modifyNth (f : α → α) : Nat → List α → List α
  | _, [] => []
  | 0, a :: l => f a :: l
  | n + 1, a :: l => a :: modifyNth f n l

/-- `weather_list[i//2]['最低気温'] = temp`. -/
def setTempLow (t : String) (r : WeatherInfo) : WeatherInfo :=
  { r with tempLow := some t }

/-- `weather_list[i//2]['最高気温'] = temp`. -/
def setTempHigh (t : String) (r : WeatherInfo) : WeatherInfo :=
  { r with tempHigh := some t }

/-- `weather_list[i]['降水確率'] = f"{pop}%"`. -/
def setPop (p : String) (r : WeatherInfo) : WeatherInfo :=
  { r with pop := some (p ++ "%") }

/-- Lines 72–85: `for i, weather in enumerate(weathers)` — append one new
row per index `i < len(times)`, temperatures and precipitation unset. -/
def appendWeathers (name code : String) (times : List String) :
    List String → Nat → List WeatherInfo → List WeatherInfo
  | [], _, acc => acc
  | w :: ws, i, acc =>
    appendWeathers name code times ws (i + 1)
      (if i < times.length then
        acc ++ [⟨name, code, times.getD i "", w, none, none, none⟩]
      else acc)

/-- Lines 88–95: `for i, temp in enumerate(temps)` — under the guard
`i < len(weather_list)`, write row `i // 2`'s low temperature when `i` is
even, its high temperature when `i` is odd. -/
def patchTemps : List String → Nat → List WeatherInfo → List WeatherInfo
  | [], _, acc => acc
  | t :: ts, i, acc =>
    patchTemps ts (i + 1)
      (if i < acc.length then
        (if i % 2 = 0 then modifyNth (setTempLow t) (i / 2) acc
         else modifyNth (setTempHigh t) (i / 2) acc)
      else acc)

/-- Lines 98–102: `for i, pop in enumerate(pops)` — under the guard
`i < len(weather_list)`, write row `i`'s precipitation probability. -/
def patchPops : List String → Nat → List WeatherInfo → List WeatherInfo
  | [], _, acc => acc
  | p :: ps, i, acc =>
    patchPops ps (i + 1)
      (if i < acc.length then modifyNth (setPop p) i acc else acc)

/-- Lines 68–102: process one area block against the accumulated
`weather_list`: optionally append rows from `weathers`, then patch
temperatures, then precipitation probabilities. -/
def processArea (name : String) (times : List String) (a : AreaBlock)
    (acc : List WeatherInfo) : List WeatherInfo :=
  let acc1 :=
    match a.weathers with
    | some ws => appendWeathers name a.code times ws 0 acc
    | none => acc
  let acc2 :=
    match a.temps with
    | some ts => patchTemps ts 0 acc1
    | none => acc1
  match a.pops with
  | some ps => patchPops ps 0 acc2
  | none => acc2

/-- The `for area in areas` loop. -/
def processAreas (name : String) (times : List String) :
    List AreaBlock → List WeatherInfo → List WeatherInfo
  | [], acc => acc
  | a :: rest, acc => processAreas name times rest (processArea name times a acc)

/-- The outer `for series in time_series` loop. -/
def processSeriesList (name : String) : List SeriesBlock → List WeatherInfo → List WeatherInfo
  | [], acc => acc
  | s :: rest, acc =>
    processSeriesList name rest (processAreas name s.timeDefines s.areas acc)

/-- `parse_weather_data(data, area_name)` (lines 44–104): `None` (here
`none`) for an absent or empty document, otherwise the flat row list
reconstructed from the first forecast edition. -/
def parse_weather_data (data : Option (List Forecast)) (area_name : String) :
    Option (List WeatherInfo) :=
  match data with
  | none => none
  | some [] => none
  | some (fc :: _) => some (processSeriesList area_name fc.timeSeries [])

/-! ### Checked (index-verified) variant of the Series Reconstructor

The same computation, but every row write `weather_list[j] = ...` is
performed through `modifyNthChecked`, which fails (returns `none`) when the
written index is out of range — exactly where CPython would raise
`IndexError`.  Proving it total and equal to `parse_weather_data`
establishes that the patch loops never index out of range. -/

/-- A row write that fails instead of silently ignoring an out-of-range
index. -/
def modifyNthChecked (f : α → α) (i : Nat) (l : List α) : Option (List α) :=
  if i < l.length then some (modifyNth f i l) else none

/-- `patchTemps` with checked row writes. -/
def patchTempsChecked : List String → Nat → List WeatherInfo →
    Option (List WeatherInfo)
  | [], _, acc => some acc
  | t :: ts, i, acc =>
    match (if i < acc.length then
            (if i % 2 = 0 then modifyNthChecked (setTempLow t) (i / 2) acc
             else modifyNthChecked (setTempHigh t) (i / 2) acc)
          else some acc) with
    | none => none
    | some acc1 => patchTempsChecked ts (i + 1) acc1

/-- `patchPops` with checked row writes. -/
def patchPopsChecked : List String → Nat → List WeatherInfo →
    Option (List WeatherInfo)
  | [], _, acc => some acc
  | p :: ps, i, acc =>
    match (if i < acc.length then modifyNthChecked (setPop p) i acc
          else some acc) with
    | none => none
    | some acc1 => patchPopsChecked ps (i + 1) acc1

/-- `processArea` with checked row writes. -/
def processAreaChecked (name : String) (times : List String) (a : AreaBlock)
    (acc : List WeatherInfo) : Option (List WeatherInfo) :=
  let acc1 :=
    match a.weathers with
    | some ws => appendWeathers name a.code times ws 0 acc
    | none => acc
  match (match a.temps with
         | some ts => patchTempsChecked ts 0 acc1
         | none => some acc1) with
  | none => none
  | some acc2 =>
    match a.pops with
    | some ps => patchPopsChecked ps 0 acc2
    | none => some acc2

/-- `processAreas` with checked row writes. -/
def processAreasChecked (name : String) (times : List String) :
    List AreaBlock → List WeatherInfo → Option (List WeatherInfo)
  | [], acc => some acc
  | a :: rest, acc =>
    match processAreaChecked name times a acc with
    | none => none
    | some acc1 => processAreasChecked name times rest acc1

/-- `processSeriesList` with checked row writes. -/
def processSeriesListChecked (name : String) :
    List SeriesBlock → List WeatherInfo → Option (List WeatherInfo)
  | [], acc => some acc
  | s :: rest, acc =>
    match processAreasChecked name s.timeDefines s.areas acc with
    | none => none
    | some acc1 => processSeriesListChecked name rest acc1

/-- `parse_weather_data` with checked row writes: the outer `Option` is
`none` exactly when some row write went out of range. -/
def parse_weather_data_checked (data : Option (List Forecast)) (area_name : String) :
    Option (Option (List WeatherInfo)) :=
  match data with
  | none => some none
  | some [] => some none
  | some (fc :: _) =>
    match processSeriesListChecked area_name fc.timeSeries [] with
    | none => none
    | some rows => some (some rows)

/-! ### Statement vocabulary for the malformed-metadata claim -/

/-- A `CLASS` entry missing its `@code` or `@name` key. -/
def entryMalformed (e : ClassEntry) : Prop :=
  e.code = none ∨ e.name = none

/-- A `CLASS` value containing a malformed entry. -/
def clsMalformed : ClassField → Prop
  | .single e => entryMalformed e
  | .many es => ∃ e ∈ es, entryMalformed e

/-- A classification object missing `@id` or `@name`, or carrying a
malformed `CLASS` entry. -/
def axisMalformed (o : ClassObj) : Prop :=
  o.id = none ∨ o.name = none ∨ clsMalformed o.cls

/-! ### Concrete documents for counterexamples and witnesses -/

/-- One series block with two timestamps, two weather strings and four
temperature strings — the de-interleaving example of the specification. -/
def tempsExampleDoc : Option (List Forecast) :=
  some [⟨[⟨["T0", "T1"],
           [⟨"130010", some ["w0", "w1"], some ["10", "20", "11", "21"], none⟩]⟩]⟩]

/-- A document with only the weather-bearing block of `crossBlockDoc`. -/
def weatherOnlyDoc : Option (List Forecast) :=
  some [⟨[⟨["T0"], [⟨"130010", some ["sunny"], none, none⟩]⟩]⟩]

/-- Two series blocks: the first creates one row from `weathers`, the
second carries only `temps`. -/
def crossBlockDoc : Option (List Forecast) :=
  some [⟨[⟨["T0"], [⟨"130010", some ["sunny"], none, none⟩]⟩,
          ⟨["T2", "T3"], [⟨"130010", none, some ["5", "15"], none⟩]⟩]⟩]

/-! ## Helper lemmas: list modification -/

theorem modifyNth_length (f : α → α) : ∀ n l, (modifyNth f n l).length = l.length := by
  intro n l
  induction l generalizing n with
  | nil => cases n <;> rfl
  | cons a l ih =>
    cases n with
    | zero => rfl
    | succ n => simp [modifyNth, ih]

theorem getD_modifyNth_ne (f : α → α) (d : α) :
    ∀ n j l, n ≠ j → (modifyNth f n l).getD j d = l.getD j d := by
  intro n j l h
  induction l generalizing n j with
  | nil => cases n <;> rfl
  | cons a l ih =>
    cases n with
    | zero =>
      cases j with
      | zero => exact absurd rfl h
      | succ j => rfl
    | succ n =>
      cases j with
      | zero => rfl
      | succ j =>
        simp only [modifyNth, List.getD_cons_succ]
        exact ih n j (by omega)

theorem getD_modifyNth_self (f : α → α) (d : α) :
    ∀ n l, n < l.length → (modifyNth f n l).getD n d = f (l.getD n d) := by
  intro n l
  induction l generalizing n with
  | nil => intro h; simp at h
  | cons a l ih =>
    cases n with
    | zero => intro _; rfl
    | succ n =>
      intro h
      simp only [modifyNth, List.getD_cons_succ]
      exact ih n (by simpa using h)

/-! ## Helper lemmas: the patch loops -/

theorem patchTemps_length : ∀ ts i acc, (patchTemps ts i acc).length = acc.length := by
  intro ts
  induction ts with
  | nil => intro i acc; rfl
  | cons t ts ih =>
    intro i acc
    simp only [patchTemps]
    rw [ih]
    split
    · split <;> rw [modifyNth_length]
    · rfl

theorem patchPops_length : ∀ ps i acc, (patchPops ps i acc).length = acc.length := by
  intro ps
  induction ps with
  | nil => intro i acc; rfl
  | cons p ps ih =>
    intro i acc
    simp only [patchPops]
    rw [ih]
    split
    · rw [modifyNth_length]
    · rfl

theorem patchTemps_stop : ∀ ts i acc, acc.length ≤ i → patchTemps ts i acc = acc := by
  intro ts
  induction ts with
  | nil => intro i acc _; rfl
  | cons t ts ih =>
    intro i acc h
    simp only [patchTemps]
    rw [if_neg (by omega)]
    exact ih (i + 1) acc (by omega)

theorem patchPops_stop : ∀ ps i acc, acc.length ≤ i → patchPops ps i acc = acc := by
  intro ps
  induction ps with
  | nil => intro i acc _; rfl
  | cons p ps ih =>
    intro i acc h
    simp only [patchPops]
    rw [if_neg (by omega)]
    exact ih (i + 1) acc (by omega)

theorem patchTemps_getD_tempLow (ts : List String) :
    ∀ i acc j, ((patchTemps ts i acc).getD j default).tempLow =
      if i ≤ 2 * j ∧ 2 * j < i + ts.length ∧ 2 * j < acc.length
      then some (ts.getD (2 * j - i) "")
      else (acc.getD j default).tempLow := by
  induction ts with
  | nil =>
    intro i acc j
    rw [if_neg (by simp only [List.length_nil]; omega)]
    rfl
  | cons t ts ih =>
    intro i acc j
    simp only [patchTemps, List.length_cons]
    set acc1 : List WeatherInfo :=
      (if i < acc.length then
        (if i % 2 = 0 then modifyNth (setTempLow t) (i / 2) acc
         else modifyNth (setTempHigh t) (i / 2) acc)
      else acc) with hacc1
    rw [ih]
    have hlen : acc1.length = acc.length := by
      rw [hacc1]
      split
      · split <;> rw [modifyNth_length]
      · rfl
    rw [hlen]
    by_cases hij : i = 2 * j
    · by_cases hlt : i < acc.length
      · have hacc1j : (acc1.getD j default).tempLow = some t := by
          rw [hacc1, if_pos hlt, if_pos (by omega : i % 2 = 0)]
          have h2 : i / 2 = j := by omega
          rw [h2, getD_modifyNth_self _ _ j acc (by omega)]
          rfl
        rw [if_neg (by omega), hacc1j, if_pos (by omega)]
        have h0 : 2 * j - i = 0 := by omega
        rw [h0]
        rfl
      · have hacc1e : acc1 = acc := by rw [hacc1]; exact if_neg hlt
        rw [if_neg (by omega), hacc1e, if_neg (by omega)]
    · have hacc1j : (acc1.getD j default).tempLow = (acc.getD j default).tempLow := by
        rw [hacc1]
        by_cases hlt : i < acc.length
        · rw [if_pos hlt]
          by_cases he : i % 2 = 0
          · rw [if_pos he, getD_modifyNth_ne _ _ _ _ _ (by omega : i / 2 ≠ j)]
          · rw [if_neg he]
            by_cases hj : i / 2 = j
            · rw [hj, getD_modifyNth_self _ _ j acc (by omega)]
              rfl
            · rw [getD_modifyNth_ne _ _ _ _ _ hj]
        · rw [if_neg hlt]
      rw [hacc1j]
      by_cases hc : i + 1 ≤ 2 * j ∧ 2 * j < i + 1 + ts.length ∧ 2 * j < acc.length
      · rw [if_pos hc, if_pos (by omega)]
        obtain ⟨k, hk⟩ : ∃ k, 2 * j - i = k + 1 := ⟨2 * j - i - 1, by omega⟩
        rw [hk, List.getD_cons_succ]
        have hkk : k = 2 * j - (i + 1) := by omega
        rw [hkk]
      · rw [if_neg hc, if_neg (by omega)]

theorem patchTemps_getD_tempHigh (ts : List String) :
    ∀ i acc j, ((patchTemps ts i acc).getD j default).tempHigh =
      if i ≤ 2 * j + 1 ∧ 2 * j + 1 < i + ts.length ∧ 2 * j + 1 < acc.length
      then some (ts.getD (2 * j + 1 - i) "")
      else (acc.getD j default).tempHigh := by
  induction ts with
  | nil =>
    intro i acc j
    rw [if_neg (by simp only [List.length_nil]; omega)]
    rfl
  | cons t ts ih =>
    intro i acc j
    simp only [patchTemps, List.length_cons]
    set acc1 : List WeatherInfo :=
      (if i < acc.length then
        (if i % 2 = 0 then modifyNth (setTempLow t) (i / 2) acc
         else modifyNth (setTempHigh t) (i / 2) acc)
      else acc) with hacc1
    rw [ih]
    have hlen : acc1.length = acc.length := by
      rw [hacc1]
      split
      · split <;> rw [modifyNth_length]
      · rfl
    rw [hlen]
    by_cases hij : i = 2 * j + 1
    · by_cases hlt : i < acc.length
      · have hacc1j : (acc1.getD j default).tempHigh = some t := by
          rw [hacc1, if_pos hlt, if_neg (by omega : ¬ i % 2 = 0)]
          have h2 : i / 2 = j := by omega
          rw [h2, getD_modifyNth_self _ _ j acc (by omega)]
          rfl
        rw [if_neg (by omega), hacc1j, if_pos (by omega)]
        have h0 : 2 * j + 1 - i = 0 := by omega
        rw [h0]
        rfl
      · have hacc1e : acc1 = acc := by rw [hacc1]; exact if_neg hlt
        rw [if_neg (by omega), hacc1e, if_neg (by omega)]
    · have hacc1j : (acc1.getD j default).tempHigh = (acc.getD j default).tempHigh := by
        rw [hacc1]
        by_cases hlt : i < acc.length
        · rw [if_pos hlt]
          by_cases he : i % 2 = 0
          · rw [if_pos he]
            by_cases hj : i / 2 = j
            · rw [hj, getD_modifyNth_self _ _ j acc (by omega)]
              rfl
            · rw [getD_modifyNth_ne _ _ _ _ _ hj]
          · rw [if_neg he, getD_modifyNth_ne _ _ _ _ _ (by omega : i / 2 ≠ j)]
        · rw [if_neg hlt]
      rw [hacc1j]
      by_cases hc : i + 1 ≤ 2 * j + 1 ∧ 2 * j + 1 < i + 1 + ts.length ∧ 2 * j + 1 < acc.length
      · rw [if_pos hc, if_pos (by omega)]
        obtain ⟨k, hk⟩ : ∃ k, 2 * j + 1 - i = k + 1 := ⟨2 * j + 1 - i - 1, by omega⟩
        rw [hk, List.getD_cons_succ]
        have hkk : k = 2 * j + 1 - (i + 1) := by omega
        rw [hkk]
      · rw [if_neg hc, if_neg (by omega)]

/-! ## Helper lemmas: the checked variant never fails -/

theorem patchTempsChecked_eq : ∀ ts i acc,
    patchTempsChecked ts i acc = some (patchTemps ts i acc) := by
  intro ts
  induction ts with
  | nil => intro i acc; rfl
  | cons t ts ih =>
    intro i acc
    simp only [patchTempsChecked, patchTemps]
    by_cases h : i < acc.length
    · rw [if_pos h, if_pos h]
      by_cases he : i % 2 = 0
      · rw [if_pos he, if_pos he]
        rw [modifyNthChecked, if_pos (by have := Nat.div_le_self i 2; omega)]
        exact ih (i + 1) _
      · rw [if_neg he, if_neg he]
        rw [modifyNthChecked, if_pos (by have := Nat.div_le_self i 2; omega)]
        exact ih (i + 1) _
    · rw [if_neg h, if_neg h]
      exact ih (i + 1) acc

theorem patchPopsChecked_eq : ∀ ps i acc,
    patchPopsChecked ps i acc = some (patchPops ps i acc) := by
  intro ps
  induction ps with
  | nil => intro i acc; rfl
  | cons p ps ih =>
    intro i acc
    simp only [patchPopsChecked, patchPops]
    by_cases h : i < acc.length
    · rw [if_pos h, if_pos h]
      rw [modifyNthChecked, if_pos h]
      exact ih (i + 1) _
    · rw [if_neg h, if_neg h]
      exact ih (i + 1) acc

theorem processAreaChecked_eq (name : String) (times : List String) (a : AreaBlock)
    (acc : List WeatherInfo) :
    processAreaChecked name times a acc = some (processArea name times a acc) := by
  obtain ⟨c, ow, ot, op⟩ := a
  cases ot <;> cases op <;>
    simp [processAreaChecked, processArea, patchTempsChecked_eq, patchPopsChecked_eq]

theorem processAreasChecked_eq (name : String) (times : List String) :
    ∀ blocks acc, processAreasChecked name times blocks acc
      = some (processAreas name times blocks acc) := by
  intro blocks
  induction blocks with
  | nil => intro acc; rfl
  | cons a rest ih =>
    intro acc
    simp only [processAreasChecked, processAreas, processAreaChecked_eq]
    exact ih _

theorem processSeriesListChecked_eq (name : String) :
    ∀ series acc, processSeriesListChecked name series acc
      = some (processSeriesList name series acc) := by
  intro series
  induction series with
  | nil => intro acc; rfl
  | cons s rest ih =>
    intro acc
    simp only [processSeriesListChecked, processSeriesList, processAreasChecked_eq]
    exact ih _

/-! ## Claims about the Series Reconstructor -/

/-- Claim C1, counterexample: with `temps = ["10","20","11","21"]` and two
rows created from two timestamps, the code's guard `i < len(weather_list)`
skips indices 2 and 3, so the row at position 1 gets NO temperatures — its
low temperature is `none`, not `"11"` as the claim states. -/
theorem temps_deinterleave_counterexample :
    parse_weather_data tempsExampleDoc "東京都"
      = some [⟨"東京都", "130010", "T0", "w0", some "20", some "10", none⟩,
              ⟨"東京都", "130010", "T1", "w1", none, none, none⟩] ∧
    ¬ (((parse_weather_data tempsExampleDoc "東京都").getD []).getD 1 default).tempLow
        = some "11" := by
  refine ⟨rfl, ?_⟩
  intro h
  rw [show (((parse_weather_data tempsExampleDoc "東京都").getD []).getD 1 default).tempLow
      = none from rfl] at h
  exact Option.noConfusion h

/-- Claim C1, amended: an index `i` of the temps loop patches the row at
position `i / 2` only under the code's guard `i < ` number of rows
accumulated so far (not merely "a row exists at position `i / 2`"); under
that guard, the row's low temperature is set to `temps[i]` when `i` is
even and its high temperature when `i` is odd. -/
theorem temps_patch_guarded (ts : List String) (acc : List WeatherInfo) (i : Nat)
    (hts : i < ts.length) (hrow : i < acc.length) :
    (i % 2 = 0 →
      ((patchTemps ts 0 acc).getD (i / 2) default).tempLow = some (ts.getD i "")) ∧
    (i % 2 = 1 →
      ((patchTemps ts 0 acc).getD (i / 2) default).tempHigh = some (ts.getD i "")) := by
  constructor
  · intro he
    rw [patchTemps_getD_tempLow, if_pos (by omega)]
    have h1 : 2 * (i / 2) - 0 = i := by omega
    rw [h1]
  · intro ho
    rw [patchTemps_getD_tempHigh, if_pos (by omega)]
    have h1 : 2 * (i / 2) + 1 - 0 = i := by omega
    rw [h1]

/-- Claim C1, witness for the amended theorem: index 1 (odd) of the temps
array sets the high temperature of row 0. -/
theorem temps_patch_guarded_witness :
    ((patchTemps ["10", "20", "11", "21"] 0
        [⟨"東京都", "130010", "T0", "w0", none, none, none⟩,
         ⟨"東京都", "130010", "T1", "w1", none, none, none⟩]).getD (1 / 2) default).tempHigh
      = some "20" :=
  (temps_patch_guarded ["10", "20", "11", "21"]
    [⟨"東京都", "130010", "T0", "w0", none, none, none⟩,
     ⟨"東京都", "130010", "T1", "w1", none, none, none⟩] 1
    (by simp) (by simp)).2 rfl

/-- Claim C2, counterexample: the row created by the first SeriesBlock
(from `weathers`) starts with no low temperature; adding a second
SeriesBlock that carries only `temps` modifies that same row — a temps
array of one SeriesBlock does modify a row created from a different
SeriesBlock. -/
theorem cross_block_patch_counterexample :
    parse_weather_data weatherOnlyDoc "東京都"
      = some [⟨"東京都", "130010", "T0", "sunny", none, none, none⟩] ∧
    parse_weather_data crossBlockDoc "東京都"
      = some [⟨"東京都", "130010", "T0", "sunny", none, some "5", none⟩] :=
  ⟨rfl, rfl⟩

/-- Claim C2, amended: rows are addressed by their position in the single
accumulated `weather_list`, which is shared across all SeriesBlocks; a
block carrying only `temps` patches the rows already accumulated from an
earlier block — here the first element of its temps array becomes the low
temperature of the row created by the previous block's `weathers`. -/
theorem temps_patch_global_rows (name w time code1 code2 : String)
    (tds2 : List String) (t : String) (ts : List String) :
    parse_weather_data
      (some [⟨[⟨[time], [⟨code1, some [w], none, none⟩]⟩,
               ⟨tds2, [⟨code2, none, some (t :: ts), none⟩]⟩]⟩]) name
      = some [⟨name, code1, time, w, none, some t, none⟩] := by
  have h1 : parse_weather_data
      (some [⟨[⟨[time], [⟨code1, some [w], none, none⟩]⟩,
               ⟨tds2, [⟨code2, none, some (t :: ts), none⟩]⟩]⟩]) name
      = some (patchTemps (t :: ts) 0 [⟨name, code1, time, w, none, none, none⟩]) := rfl
  rw [h1]
  have h2 : patchTemps (t :: ts) 0 [⟨name, code1, time, w, none, none, none⟩]
      = patchTemps ts 1 [⟨name, code1, time, w, none, some t, none⟩] := rfl
  rw [h2, patchTemps_stop ts 1 _ (by simp)]

/-- Claim C5, counterexample: for an empty (or absent) document,
`parse_weather_data` returns the absent value `none` — not an empty
result table. -/
theorem empty_doc_counterexample :
    parse_weather_data (some []) "東京都" = none ∧
    parse_weather_data none "東京都" = none ∧
    (none : Option (List WeatherInfo)) ≠ some [] :=
  ⟨rfl, rfl, by simp⟩

/-- Claim C5, amended: an empty or absent forecast document makes
`parse_weather_data` return `None` (the absent value, which its caller
then filters out); it does not raise, and it does not return an empty
table. -/
theorem empty_doc_returns_none (name : String) :
    parse_weather_data none name = none ∧ parse_weather_data (some []) name = none :=
  ⟨rfl, rfl⟩

/-- Claim C6: an area block without `weathers` never changes the number of
accumulated rows — `temps` and `pops` only patch; in particular, starting
from no rows, such a block produces zero rows. -/
theorem row_creation_requires_weathers (name : String) (times : List String)
    (code : String) (ots ops : Option (List String)) (acc : List WeatherInfo) :
    (processArea name times ⟨code, none, ots, ops⟩ acc).length = acc.length ∧
    processArea name times ⟨code, none, ots, ops⟩ [] = [] := by
  constructor
  · cases ots <;> cases ops <;>
      simp [processArea, patchTemps_length, patchPops_length]
  · cases ots <;> cases ops <;>
      simp [processArea, patchTemps_stop, patchPops_stop]

/-- Claim C10: the temps and pops patch loops never write a row index out
of range — running the reconstruction with every row write checked
(failing like an `IndexError` would) always succeeds and agrees with the
unchecked model, for every input document. -/
theorem patch_loops_in_bounds (data : Option (List Forecast)) (name : String) :
    parse_weather_data_checked data name = some (parse_weather_data data name) := by
  match data with
  | none => rfl
  | some [] => rfl
  | some (fc :: rest) =>
    simp only [parse_weather_data_checked, parse_weather_data, processSeriesListChecked_eq]

/-! ## Helper lemmas: the Classification Resolver -/

theorem replaceColumn_ok (df : DataFrame) (col : String) (d : List (String × String))
    (df' : DataFrame) (h : replaceColumn df col d = .ok df') :
    df'.columns = df.columns ∧ df'.rows = df.rows.map (resolveRow col d) ∧
    col ∈ df.columns := by
  unfold replaceColumn at h
  split at h
  · cases h
    exact ⟨rfl, rfl, by assumption⟩
  · cases h

theorem resolveAxis_ok (df : DataFrame) (o : ClassObj) (df' : DataFrame)
    (h : resolveAxis df o = .ok df') :
    ∃ i d, o.id = some i ∧ id_to_name_dict o.cls = .ok d ∧
      df'.columns = df.columns ∧ df'.rows = df.rows.map (resolveRow ("@" ++ i) d) ∧
      ("@" ++ i) ∈ df.columns := by
  unfold resolveAxis at h
  cases hid : o.id with
  | none => rw [hid] at h; cases h
  | some i =>
    rw [hid] at h
    cases hd : id_to_name_dict o.cls with
    | error e => rw [hd] at h; cases h
    | ok d =>
      rw [hd] at h
      obtain ⟨h1, h2, h3⟩ := replaceColumn_ok df ("@" ++ i) d df' h
      exact ⟨i, d, rfl, rfl, h1, h2, h3⟩

theorem resolveAll_columns : ∀ meta df df',
    resolveAll meta df = .ok df' → df'.columns = df.columns := by
  intro meta
  induction meta with
  | nil =>
    intro df df' h
    cases h
    rfl
  | cons o rest ih =>
    intro df df' h
    unfold resolveAll at h
    cases hx : resolveAxis df o with
    | error e => rw [hx] at h; cases h
    | ok df1 =>
      rw [hx] at h
      have h1 := (resolveAxis_ok df o df1 hx).choose_spec.choose_spec.2.2.1
      rw [ih df1 df' h, h1]

theorem buildEntryDict_malformed : ∀ es d, (∃ e ∈ es, entryMalformed e) →
    ∀ r, buildEntryDict es d ≠ .ok r := by
  intro es
  induction es with
  | nil =>
    intro d hex r h
    obtain ⟨e, he, _⟩ := hex
    cases he
  | cons e0 es ih =>
    intro d hex r h
    unfold buildEntryDict at h
    obtain ⟨e, hmem, hmal⟩ := hex
    cases hc : e0.code with
    | none => rw [hc] at h; cases h
    | some c =>
      rw [hc] at h
      cases hn : e0.name with
      | none => rw [hn] at h; cases h
      | some n =>
        rw [hn] at h
        rcases List.mem_cons.mp hmem with heq | hmem'
        · subst heq
          rcases hmal with h1 | h2
          · rw [hc] at h1; cases h1
          · rw [hn] at h2; cases h2
        · exact ih _ ⟨e, hmem', hmal⟩ r h

theorem id_to_name_dict_malformed (cf : ClassField) (hmal : clsMalformed cf) :
    ∀ r, id_to_name_dict cf ≠ .ok r := by
  intro r h
  cases cf with
  | many es => exact buildEntryDict_malformed es [] hmal r h
  | single e =>
    simp only [id_to_name_dict] at h
    rcases hmal with h1 | h2
    · rw [h1] at h; cases h
    · cases hc : e.code with
      | none => rw [hc] at h; cases h
      | some c => rw [hc, h2] at h; cases h

theorem resolveAxis_malformed (o : ClassObj) (hmal : o.id = none ∨ clsMalformed o.cls) :
    ∀ df df', resolveAxis df o ≠ .ok df' := by
  intro df df' h
  unfold resolveAxis at h
  rcases hmal with h1 | h2
  · rw [h1] at h; cases h
  · cases hid : o.id with
    | none => rw [hid] at h; cases h
    | some i =>
      rw [hid] at h
      cases hd : id_to_name_dict o.cls with
      | error e => rw [hd] at h; cases h
      | ok d => exact id_to_name_dict_malformed o.cls h2 d hd

theorem resolveAll_malformed (o : ClassObj) (hmal : o.id = none ∨ clsMalformed o.cls) :
    ∀ meta df, o ∈ meta → ∀ df', resolveAll meta df ≠ .ok df' := by
  intro meta
  induction meta with
  | nil =>
    intro df hmem
    cases hmem
  | cons m rest ih =>
    intro df hmem df' h
    unfold resolveAll at h
    cases hx : resolveAxis df m with
    | error e => rw [hx] at h; cases h
    | ok df1 =>
      rw [hx] at h
      rcases List.mem_cons.mp hmem with heq | hmem'
      · subst heq
        exact resolveAxis_malformed o hmal df df1 hx
      · exact ih df1 hmem' df' h

theorem col_replace_aux_malformed (o : ClassObj) (hmal : o.id = none ∨ o.name = none) :
    ∀ meta d, o ∈ meta → ∀ r, col_replace_aux meta d ≠ .ok r := by
  intro meta
  induction meta with
  | nil =>
    intro d hmem
    cases hmem
  | cons m rest ih =>
    intro d hmem r h
    unfold col_replace_aux at h
    cases hid : m.id with
    | none => rw [hid] at h; cases h
    | some i =>
      rw [hid] at h
      cases hn : m.name with
      | none => rw [hn] at h; cases h
      | some n =>
        rw [hn] at h
        rcases List.mem_cons.mp hmem with heq | hmem'
        · subst heq
          rcases hmal with h1 | h2
          · rw [hid] at h1; cases h1
          · rw [hn] at h2; cases h2
        · exact ih _ hmem' r h

theorem resolveAll_missing_column (id : String) (o : ClassObj)
    (hid : o.id = some id) :
    ∀ meta df, o ∈ meta → ("@" ++ id) ∉ df.columns →
      ∀ df', resolveAll meta df ≠ .ok df' := by
  intro meta
  induction meta with
  | nil =>
    intro df hmem
    cases hmem
  | cons m rest ih =>
    intro df hmem hcol df' h
    unfold resolveAll at h
    cases hx : resolveAxis df m with
    | error e => rw [hx] at h; cases h
    | ok df1 =>
      rw [hx] at h
      rcases List.mem_cons.mp hmem with heq | hmem'
      · subst heq
        obtain ⟨i2, d2, hid2, _, _, _, hmem2⟩ := resolveAxis_ok df o df1 hx
        rw [hid] at hid2
        injection hid2 with hii
        rw [← hii] at hmem2
        exact hcol hmem2
      · have hcols := (resolveAxis_ok df m df1 hx).choose_spec.choose_spec.2.2.1
        exact ih df1 hmem' (by rw [hcols]; exact hcol) df' h

theorem lookup_map_overwrite (k v k' : String) (h : k' ≠ k) :
    ∀ d : List (String × String),
      (d.map (fun p => if p.1 = k then (k, v) else p)).lookup k' = d.lookup k' := by
  intro d
  induction d with
  | nil => rfl
  | cons p d ih =>
    obtain ⟨p1, p2⟩ := p
    simp only [List.map_cons]
    by_cases hp : p1 = k
    · rw [show (if (p1, p2).1 = k then (k, v) else (p1, p2)) = (k, v) from if_pos hp]
      rw [List.lookup_cons, List.lookup_cons]
      rw [beq_false_of_ne h, beq_false_of_ne (by rw [hp]; exact h)]
      exact ih
    · rw [show (if (p1, p2).1 = k then (k, v) else (p1, p2)) = (p1, p2) from if_neg hp]
      rw [List.lookup_cons, List.lookup_cons]
      cases hb : (k' == p1) with
      | false => exact ih
      | true => rfl

theorem lookup_append_single_ne (k v k' : String) (h : k' ≠ k) :
    ∀ d : List (String × String), (d ++ [(k, v)]).lookup k' = d.lookup k' := by
  intro d
  induction d with
  | nil =>
    show List.lookup k' [(k, v)] = none
    rw [List.lookup_cons, beq_false_of_ne h]
    rfl
  | cons p d ih =>
    obtain ⟨p1, p2⟩ := p
    rw [List.cons_append, List.lookup_cons, List.lookup_cons]
    cases hb : (k' == p1) with
    | false => exact ih
    | true => rfl

theorem lookup_dictSet_ne (d : List (String × String)) (k v k' : String) (h : k' ≠ k) :
    (dictSet d k v).lookup k' = d.lookup k' := by
  unfold dictSet
  split
  · exact lookup_map_overwrite k v k' h d
  · exact lookup_append_single_ne k v k' h d

theorem append_at_ne_dollar (s : String) : ("@" ++ s) ≠ "$" := by
  intro h
  have h2 := congrArg String.data h
  rw [String.data_append] at h2
  have h3 : "@".data = ['@'] := rfl
  rw [h3] at h2
  simp at h2

theorem col_replace_aux_dollar : ∀ meta d cd, d.lookup "$" = some "値" →
    col_replace_aux meta d = .ok cd → cd.lookup "$" = some "値" := by
  intro meta
  induction meta with
  | nil =>
    intro d cd hd h
    cases h
    exact hd
  | cons o rest ih =>
    intro d cd hd h
    unfold col_replace_aux at h
    cases hid : o.id with
    | none => rw [hid] at h; cases h
    | some i =>
      rw [hid] at h
      cases hn : o.name with
      | none => rw [hn] at h; cases h
      | some n =>
        rw [hn] at h
        refine ih _ cd ?_ h
        rw [lookup_dictSet_ne _ _ _ _ (Ne.symm (append_at_ne_dollar i))]
        exact hd

theorem col_replace_dict_dollar (meta : List ClassObj) (cd : List (String × String))
    (h : col_replace_dict meta = .ok cd) : cd.lookup "$" = some "値" := by
  unfold col_replace_dict at h
  exact col_replace_aux_dollar meta _ cd (by rfl) h

theorem id_to_name_dict_single_eq (e : ClassEntry) :
    id_to_name_dict (.single e) = id_to_name_dict (.many [e]) := by
  obtain ⟨c, n⟩ := e
  cases c <;> cases n <;> rfl

theorem resolveAxis_cls_congr (df : DataFrame) (oid oname : Option String)
    (c1 c2 : ClassField) (hc : id_to_name_dict c1 = id_to_name_dict c2) :
    resolveAxis df ⟨oid, oname, c1⟩ = resolveAxis df ⟨oid, oname, c2⟩ := by
  cases oid with
  | none => rfl
  | some i =>
    simp only [resolveAxis]
    rw [hc]

theorem resolveAll_congr_at : ∀ (pre : List ClassObj) (a1 a2 : ClassObj)
    (post : List ClassObj) (df : DataFrame),
    (∀ df0, resolveAxis df0 a1 = resolveAxis df0 a2) →
    resolveAll (pre ++ a1 :: post) df = resolveAll (pre ++ a2 :: post) df := by
  intro pre
  induction pre with
  | nil =>
    intro a1 a2 post df hax
    simp only [List.nil_append, resolveAll]
    rw [hax df]
  | cons m pre ih =>
    intro a1 a2 post df hax
    simp only [List.cons_append, resolveAll]
    cases hx : resolveAxis df m with
    | error e => rfl
    | ok df1 => exact ih a1 a2 post df1 hax

theorem col_replace_aux_congr : ∀ (pre : List ClassObj) (oid oname : Option String)
    (c1 c2 : ClassField) (post : List ClassObj) (d : List (String × String)),
    col_replace_aux (pre ++ ⟨oid, oname, c1⟩ :: post) d
      = col_replace_aux (pre ++ ⟨oid, oname, c2⟩ :: post) d := by
  intro pre
  induction pre with
  | nil =>
    intro oid oname c1 c2 post d
    cases oid <;> cases oname <;> rfl
  | cons m pre ih =>
    intro oid oname c1 c2 post d
    simp only [List.cons_append, col_replace_aux]
    cases hid : m.id with
    | none => rfl
    | some i =>
      cases hn : m.name with
      | none => rfl
      | some n => exact ih oid oname c1 c2 post _

/-! ## Claims about the Classification Resolver -/

/-- Claim C3, counterexample: an axis whose derived coded-field identifier
(`@cat01`) is not a column of the record set is not a no-op — the whole
operation raises `KeyError` instead of tolerating it. -/
theorem inert_axis_counterexample :
    processStats [⟨some "cat01", some "分類", .many []⟩]
        ⟨["@area"], [[("@area", "01000")]]⟩
      = .error "KeyError" := rfl

/-- Claim C3, amended: for every axis of the metadata whose derived
coded-field identifier is not a column of the record set, the resolution
loop raises `KeyError` when it reaches that axis, so the whole operation
aborts and never returns a result. -/
theorem missing_column_errors (meta : List ClassObj) (df : DataFrame) (o : ClassObj)
    (id : String) (hmem : o ∈ meta) (hid : o.id = some id)
    (hcol : ("@" ++ id) ∉ df.columns) :
    ∀ out, processStats meta df ≠ .ok out := by
  intro out h
  unfold processStats at h
  cases hx : resolveAll meta df with
  | error e => rw [hx] at h; cases h
  | ok df1 => exact resolveAll_missing_column id o hid meta df hmem hcol df1 hx

/-- Claim C3, witness for the amended theorem at a concrete input. -/
theorem missing_column_errors_witness :
    processStats [⟨some "cat01", some "分類", .many []⟩]
        ⟨["@area"], [[("@area", "01000")]]⟩
      ≠ .ok ⟨["@area"], [[("@area", "01000")]]⟩ :=
  missing_column_errors _ _ ⟨some "cat01", some "分類", .many []⟩ "cat01"
    (List.mem_singleton.mpr rfl) rfl (by decide) ⟨["@area"], [[("@area", "01000")]]⟩

/-- Claim C4, counterexample: the first axis is missing `@id`, so the run
aborts with `KeyError`; the second, well-formed axis is never applied and
no rows are returned — the operation does not continue past malformed
metadata. -/
theorem malformed_meta_counterexample :
    processStats [⟨none, some "名前", .many [⟨some "01", some "A"⟩]⟩,
                  ⟨some "cat01", some "分類", .many [⟨some "01", some "A"⟩]⟩]
        ⟨["@cat01"], [[("@cat01", "01")]]⟩
      = .error "KeyError" := rfl

/-- Claim C4, amended: an axis missing its `@id` or `@name` key, or a
CLASS entry missing `@code` or `@name`, raises `KeyError` and aborts the
whole operation — no resolved rows are returned at all. -/
theorem malformed_meta_aborts (meta : List ClassObj) (df : DataFrame) (o : ClassObj)
    (hmem : o ∈ meta) (hmal : axisMalformed o) :
    ∀ out, processStats meta df ≠ .ok out := by
  intro out h
  unfold processStats at h
  cases hra : resolveAll meta df with
  | error e => rw [hra] at h; cases h
  | ok df1 =>
    rw [hra] at h
    rcases hmal with h1 | h2 | h3
    · exact resolveAll_malformed o (Or.inl h1) meta df hmem df1 hra
    · cases hcd : col_replace_dict meta with
      | error e => rw [hcd] at h; cases h
      | ok cd =>
        unfold col_replace_dict at hcd
        exact col_replace_aux_malformed o (Or.inr h2) meta _ hmem cd hcd
    · exact resolveAll_malformed o (Or.inr h3) meta df hmem df1 hra

/-- Claim C4, witness for the amended theorem at a concrete input. -/
theorem malformed_meta_aborts_witness :
    processStats [⟨none, some "名前", .single ⟨some "01", some "A"⟩⟩] ⟨[], []⟩
      ≠ .ok ⟨[], []⟩ :=
  malformed_meta_aborts _ _ ⟨none, some "名前", .single ⟨some "01", some "A"⟩⟩
    (List.mem_singleton.mpr rfl) (Or.inl rfl) ⟨[], []⟩

/-- Claim C7: when an axis resolves successfully with dictionary `d`, the
row count is preserved, and every field whose value has no entry in `d`
appears unchanged in the output row, whose field count is also
preserved — unresolved codes pass through, nothing is dropped. -/
theorem unresolved_code_passthrough (df : DataFrame) (o : ClassObj) (df' : DataFrame)
    (d : List (String × String)) (h : resolveAxis df o = .ok df')
    (hd : id_to_name_dict o.cls = .ok d) :
    df'.rows.length = df.rows.length ∧
    ∀ j k v, j < df.rows.length → (k, v) ∈ df.rows.getD j [] → d.lookup v = none →
      ((k, v) ∈ df'.rows.getD j [] ∧
        (df'.rows.getD j []).length = (df.rows.getD j []).length) := by
  obtain ⟨i, d2, hid, hd2, hcols, hrows, hmem⟩ := resolveAxis_ok df o df' h
  rw [hd] at hd2
  injection hd2 with hdd
  subst hdd
  constructor
  · rw [hrows, List.length_map]
  · intro j k v hj hkv hv
    have hjrow : df'.rows.getD j [] = resolveRow ("@" ++ i) d (df.rows.getD j []) := by
      rw [hrows]
      rw [List.getD_eq_getElem _ _ (by rw [List.length_map]; exact hj)]
      rw [List.getElem_map]
      rw [List.getD_eq_getElem _ _ hj]
    have himg : (fun p : String × String =>
        if p.1 = "@" ++ i then (p.1, replaceVal d p.2) else p) (k, v) = (k, v) := by
      show (if (k, v).1 = "@" ++ i then ((k, v).1, replaceVal d (k, v).2) else (k, v))
        = (k, v)
      by_cases hk : k = "@" ++ i
      · rw [if_pos (show (k, v).1 = "@" ++ i from hk)]
        show (k, replaceVal d v) = (k, v)
        unfold replaceVal
        rw [hv]
      · rw [if_neg (show ¬ (k, v).1 = "@" ++ i from hk)]
    constructor
    · rw [hjrow]
      unfold resolveRow
      have hm := List.mem_map_of_mem (fun p : String × String =>
        if p.1 = "@" ++ i then (p.1, replaceVal d p.2) else p) hkv
      rw [himg] at hm
      exact hm
    · rw [hjrow]
      unfold resolveRow
      rw [List.length_map]

/-- Claim C7, witness: a concrete row whose code `99` has no entry passes
through unchanged. -/
theorem unresolved_code_passthrough_witness :
    ("@cat01", "99") ∈ (DataFrame.mk ["@cat01"] [[("@cat01", "99")]]).rows.getD 0 [] :=
  ((unresolved_code_passthrough ⟨["@cat01"], [[("@cat01", "99")]]⟩
      ⟨some "cat01", some "分類", .many [⟨some "01", some "りんご"⟩]⟩
      ⟨["@cat01"], [[("@cat01", "99")]]⟩ [("01", "りんご")]
      rfl rfl).2 0 "@cat01" "99" (by decide) (by decide) (by decide)).1

/-- Claim C8, counterexample: an axis with id `unit` overwrites the fixed
rename of the `@unit` column — the output column is `X`, not the fixed
unit label `単位`. -/
theorem unit_rename_counterexample :
    processStats [⟨some "unit", some "X", .many []⟩] ⟨["@unit"], []⟩
      = .ok ⟨["X"], []⟩ ∧ ("X" : String) ≠ "単位" :=
  ⟨rfl, by decide⟩

/-- Claim C8, amended: the output column list has the same length and
positional order as the input, each column is renamed through the rename
dictionary (a column with no entry keeps its name), and the raw-value
column `$` always maps to the fixed label `値`; the fixed `@unit` entry,
however, can be overwritten by an axis whose id is `unit` (last write
wins), as the counterexample shows. -/
theorem column_rename_spec (meta : List ClassObj) (df out : DataFrame)
    (cd : List (String × String)) (h : processStats meta df = .ok out)
    (hcd : col_replace_dict meta = .ok cd) :
    out.columns.length = df.columns.length ∧
    (∀ j, j < df.columns.length →
      out.columns.getD j ""
        = (cd.lookup (df.columns.getD j "")).getD (df.columns.getD j "")) ∧
    cd.lookup "$" = some "値" := by
  unfold processStats at h
  cases hra : resolveAll meta df with
  | error e => rw [hra] at h; cases h
  | ok df1 =>
    rw [hra, hcd] at h
    cases h
    have hc1 : df1.columns = df.columns := resolveAll_columns meta df df1 hra
    refine ⟨?_, ?_, col_replace_dict_dollar meta cd hcd⟩
    · show (new_columns df1.columns cd).length = df.columns.length
      unfold new_columns
      rw [List.length_map, hc1]
    · intro j hj
      show (new_columns df1.columns cd).getD j "" = _
      unfold new_columns
      rw [hc1]
      rw [List.getD_eq_getElem _ _ (by rw [List.length_map]; exact hj)]
      rw [List.getElem_map]
      rw [List.getD_eq_getElem _ _ hj]
      cases cd.lookup (df.columns[j]) <;> rfl

/-- Claim C8, witness for the amended theorem at a concrete input. -/
theorem column_rename_spec_witness :
    (DataFrame.mk ["分類", "単位", "値", "@time"] []).columns.length
      = (DataFrame.mk ["@cat01", "@unit", "$", "@time"] []).columns.length :=
  (column_rename_spec [⟨some "cat01", some "分類", .many [⟨some "01", some "A"⟩]⟩]
    ⟨["@cat01", "@unit", "$", "@time"], []⟩ ⟨["分類", "単位", "値", "@time"], []⟩
    [("@unit", "単位"), ("$", "値"), ("@cat01", "分類")] rfl rfl).1

/-- Claim C9: resolving with an axis holding a single bare entry object and
with the same axis holding the one-element list of that entry yields
identical outputs, whatever the surrounding axes and record set. -/
theorem single_entry_normalization (pre post : List ClassObj) (oid oname : Option String)
    (e : ClassEntry) (df : DataFrame) :
    processStats (pre ++ ⟨oid, oname, ClassField.single e⟩ :: post) df
      = processStats (pre ++ ⟨oid, oname, ClassField.many [e]⟩ :: post) df := by
  unfold processStats
  rw [resolveAll_congr_at pre ⟨oid, oname, .single e⟩ ⟨oid, oname, .many [e]⟩ post df
      (fun df0 => resolveAxis_cls_congr df0 oid oname _ _ (id_to_name_dict_single_eq e))]
  rw [show col_replace_dict (pre ++ ⟨oid, oname, ClassField.single e⟩ :: post)
      = col_replace_dict (pre ++ ⟨oid, oname, ClassField.many [e]⟩ :: post) from by
    unfold col_replace_dict
    exact col_replace_aux_congr pre oid oname _ _ post _]
